import Mathlib

/-!
Shallow embedding of the `system-monitoring` repository core:

* `src/types.rs`   — alert protocol entities (`Event`, `EventAck`, `ICUStatus`,
  `ICUError`) and the acknowledgement constructor `EventAck::new`;
* `src/server.rs`  — the receiver-side handler `EventsService::alert`;
* `src/metrics.rs` / `src/main.rs` — the anomaly-scoring engine
  (`MetricHistory` with its `add`, `update_smoothed_scores` and `detect_spike`
  methods, `determine_status`, and the per-cycle aggregator `analyze_status`).

Rust `String` values are modelled as lists of characters (`RStr`), so that
`starts_with` becomes `List.isPrefixOf` and `format!("ack-{}", s)` becomes
list append.  Rust `f64` is modelled as `ℚ`: every constant appearing in the
code (0.3, 0.2, 20.0, the thresholds and weights) is exactly representable,
and the algorithms use only field operations and comparisons.
-/

namespace SysMon

/-! ### Rust strings as character lists -/

/-- Rust `String`, modelled as the sequence of its characters. -/
abbrev RStr := List Char

/-- Rust `str::starts_with`. -/
def starts_with (s p : RStr) : Bool := p.isPrefixOf s

/-! ### `src/types.rs` -/

/-- `tonic::Status` codes (external to the repository); only carried around,
never inspected by the embedded code, so the numeric gRPC code suffices. -/
structure TonicStatus where
  code : Int
deriving DecidableEq

/-- `src/types.rs` — `ICUStatus`, with `Failure = 0`, `Success = 1`. -/
inductive ICUStatus where
  | Failure
  | Success
deriving DecidableEq, Repr

/-- The Rust `ICUStatus as i32` cast. -/
def ICUStatus.toI32 : ICUStatus → Int
  | .Failure => 0
  | .Success => 1

/-- `src/types.rs` — `ICUError`. -/
structure ICUError where
  code : TonicStatus
  message : RStr
deriving DecidableEq

/-- `src/types.rs` — `Event`. -/
structure Event where
  subject : RStr
  payload : RStr
  reply : Bool
deriving DecidableEq

/-- `src/types.rs` — `EventAck`. -/
structure EventAck where
  subject : RStr
  payload : RStr
  status : ICUStatus
deriving DecidableEq

/-- `src/types.rs` — `EventAck::new`.

```text
if subject.starts_with("ack-") {
    Self { subject, payload, status }
} else {
    Self {
        subject: format!("ack-{}", subject),
        payload: error.as_ref().map_or(payload, |e| e.message.clone()),
        status: error.map_or(ICUStatus::Success, |_| ICUStatus::Failure),
    }
}
``` -/
def EventAck.new (subject payload : RStr) (status : ICUStatus)
    (error : Option ICUError) : EventAck :=
  if starts_with subject ("ack-".toList) then
    { subject := subject, payload := payload, status := status }
  else
    { subject := "ack-".toList ++ subject
      payload := (error.map ICUError.message).getD payload
      status := match error with
        | some _ => ICUStatus.Failure
        | none => ICUStatus.Success }

/-! ### `src/server.rs` -/

/-- Wire `Acknowledge` message (proto): `subject`, `status : i32`, `payload`. -/
structure Acknowledge where
  subject : RStr
  status : Int
  payload : RStr
deriving DecidableEq

/-- `src/server.rs` — `EventsService::alert`.  The Rust handler returns
`Result<Response<Acknowledge>, Status>`; both branches return `Ok`, modelled
as `some`. -/
def EventsService.alert (event : Event) : Option Acknowledge :=
  if event.reply then
    some { subject := "ack-".toList ++ event.subject
           status := ICUStatus.Success.toI32
           payload := "Acknowledged successfully.".toList }
  else
    some { subject := event.subject
           status := ICUStatus.Failure.toI32
           payload := "Acknowledgement failed.".toList }

/-! ### `src/metrics.rs` / `src/main.rs` — data model -/

/-- `MAX_HISTORY` (both `src/main.rs` and `src/metrics.rs`). -/
def MAX_HISTORY : Nat := 100

/-- `SMOOTHING_ALPHA = 0.3`, the EWMA smoothing factor. -/
def SMOOTHING_ALPHA : ℚ := 3 / 10

/-- `SPIKE_THRESHOLD = 20.0`, the threshold for detecting rapid spikes. -/
def SPIKE_THRESHOLD : ℚ := 20

/-- A data point `[f64; 4]`: `[CPU, RAM, Disk, Network Latency]`. -/
abbrev Sample := Fin 4 → ℚ

/-- `MetricStatus` from `src/metrics.rs`. -/
inductive MetricStatus where
  | Normal
  | Warning
  | Critical
deriving DecidableEq, Repr

/-- Severity rank of a status (`Normal < Warning < Critical`). -/
def MetricStatus.rank : MetricStatus → Nat
  | .Normal => 0
  | .Warning => 1
  | .Critical => 2

/-- `MetricHistory` from `src/metrics.rs` / `src/main.rs`.  The `VecDeque` is
a list whose head is the front (oldest) and whose last element is the back
(newest). -/
structure MetricHistory where
  data : List Sample
  smoothed_scores : Fin 4 → ℚ
  previous_data : Option Sample

/-- `MetricHistory::new`. -/
def MetricHistory.new : MetricHistory :=
  { data := [], smoothed_scores := fun _ => 0, previous_data := none }

/-- `MetricHistory::add`: pop the front when at capacity, record the old back
as `previous_data`, then push the new sample at the back. -/
def MetricHistory.add (h : MetricHistory) (cpu ram disk latency : ℚ) :
    MetricHistory :=
  let d := if h.data.length = MAX_HISTORY then h.data.tail else h.data
  { data := d ++ [![cpu, ram, disk, latency]]
    smoothed_scores := h.smoothed_scores
    previous_data := d.getLast? }

/-- `MetricHistory::update_smoothed_scores`: EWMA update of all four
dimensions. -/
def MetricHistory.update_smoothed_scores (h : MetricHistory)
    (latest_scores : Fin 4 → ℚ) : MetricHistory :=
  { h with smoothed_scores := fun i =>
      SMOOTHING_ALPHA * latest_scores i
        + (1 - SMOOTHING_ALPHA) * h.smoothed_scores i }

/-- `MetricHistory::detect_spike`: compare `current_data` against
`previous_data` coordinatewise. -/
def MetricHistory.detect_spike (h : MetricHistory) (current_data : Fin 4 → ℚ) :
    Fin 4 → Bool :=
  match h.previous_data with
  | some prev => fun i => |current_data i - prev i| > SPIKE_THRESHOLD
  | none => fun _ => false

/-- `Metric` from `src/metrics.rs`. -/
structure Metric where
  value : ℚ
  status : MetricStatus
deriving DecidableEq, Repr

/-- `Metrics` from `src/metrics.rs`. -/
structure Metrics where
  cpu : Metric
  ram : Metric
  disk : Metric
  network : Metric
  overall_status : MetricStatus
deriving DecidableEq, Repr

/-- The four per-dimension statuses of a verdict, in the order
`[cpu, ram, disk, network]` used throughout the code. -/
def Metrics.status_vec (m : Metrics) : Fin 4 → MetricStatus :=
  ![m.cpu.status, m.ram.status, m.disk.status, m.network.status]

/-- `determine_status` from `src/main.rs`: strict `>` comparisons against
`threshold + 0.2` (Critical) and `threshold` (Warning). -/
def determine_status (score threshold : ℚ) : MetricStatus :=
  if score > threshold + 2 / 10 then MetricStatus.Critical
  else if score > threshold then MetricStatus.Warning
  else MetricStatus.Normal

/-- `ForestOptions` of the external `extended_isolation_forest` crate (only
its shape is needed: `analyze_status` builds one and hands it to the
training function). -/
structure ForestOptions where
  n_trees : Nat
  sample_size : Nat
  max_tree_depth : Option Nat
  extension_level : Nat

/-- `analyze_status` from `src/main.rs`.  The external isolation-forest
library is abstracted by the `from_slice` argument: `Forest::from_slice`
returns `Result<Forest, Error>`, modelled as `Option` of a scoring function
(`Forest::score`).  The Rust function takes `&mut MetricHistory`; the model
returns the verdict together with the updated history. -/
def analyze_status
    (from_slice : List Sample → ForestOptions → Option (Sample → ℚ))
    (history : MetricHistory) : Metrics × MetricHistory :=
  let data_len := history.data.length
  let training_data := history.data
  let options : ForestOptions :=
    { n_trees := 100, sample_size := data_len
      max_tree_depth := none, extension_level := 1 }
  match from_slice training_data options with
  | none =>
    ({ cpu := { value := 0, status := MetricStatus.Normal }
       ram := { value := 0, status := MetricStatus.Normal }
       disk := { value := 0, status := MetricStatus.Normal }
       network := { value := 0, status := MetricStatus.Normal }
       overall_status := MetricStatus.Normal }, history)
  | some score =>
    let latest_data := history.data.getLast!
    let latest_scores : Fin 4 → ℚ :=
      ![score ![latest_data 0, 0, 0, 0],
        score ![0, latest_data 1, 0, 0],
        score ![0, 0, latest_data 2, 0],
        score ![0, 0, 0, latest_data 3]]
    let history1 := history.update_smoothed_scores latest_scores
    let spikes := history1.detect_spike latest_data
    let coefficients : Fin 4 → ℚ := ![4/10, 35/100, 15/100, 1/10]
    let thresholds : Fin 4 → ℚ := ![7/10, 6/10, 65/100, 75/100]
    let statuses : Fin 4 → MetricStatus := fun i =>
      if spikes i then MetricStatus.Warning
      else determine_status (history1.smoothed_scores i) (thresholds i)
    let overall_score : ℚ :=
      history1.smoothed_scores 0 * coefficients 0
        + history1.smoothed_scores 1 * coefficients 1
        + history1.smoothed_scores 2 * coefficients 2
        + history1.smoothed_scores 3 * coefficients 3
    let overall_status :=
      if overall_score > 8/10 then MetricStatus.Critical
      else if overall_score > 6/10 then MetricStatus.Warning
      else MetricStatus.Normal
    ({ cpu := { value := latest_data 0, status := statuses 0 }
       ram := { value := latest_data 1, status := statuses 1 }
       disk := { value := latest_data 2, status := statuses 2 }
       network := { value := latest_data 3, status := statuses 3 }
       overall_status := overall_status }, history1)

/-- `MetricHistory::add` applied to the four components of one sample. -/
def MetricHistory.addSample (h : MetricHistory) (s : Sample) : MetricHistory :=
  h.add (s 0) (s 1) (s 2) (s 3)

/-- Pushing a list of samples into the history, oldest first. -/
def push_all (h : MetricHistory) (ss : List Sample) : MetricHistory :=
  ss.foldl MetricHistory.addSample h

/-- Applying a list of EWMA updates in order. -/
def update_all (h : MetricHistory) (scores : List (Fin 4 → ℚ)) :
    MetricHistory :=
  scores.foldl MetricHistory.update_smoothed_scores h

/-- A training function that always succeeds, scoring every query at 1
(the maximally anomalous isolation-forest score). -/
def c3_from_slice : List Sample → ForestOptions → Option (Sample → ℚ) :=
  fun _ _ => some (fun _ => 1)

/-- A mid-cycle history state: the latest sample's RAM reading has just
jumped by 30 relative to the previous sample, and the RAM smoothed score
carried over from earlier cycles is `0.9` (the smoothed scores converge
toward `1` under repeatedly maximal raw scores, so such states arise after
sufficiently many high-score cycles). -/
def c3_history : MetricHistory :=
  { data := [![0, 0, 0, 0], ![0, 30, 0, 0]]
    smoothed_scores := ![0, 9 / 10, 0, 0]
    previous_data := some ![0, 0, 0, 0] }

/-! ### Helper lemmas -/

/-- `p.isPrefixOf (p ++ t)` always holds (with `LawfulBEq` on `Char`). -/
theorem isPrefixOf_append_self (p t : RStr) : p.isPrefixOf (p ++ t) = true := by
  induction p with
  | nil => simp
  | cons a as ih => simp [ih]

/-- Rebuilding a 4-vector from its components is the identity. -/
theorem sample_eta (s : Sample) : (![s 0, s 1, s 2, s 3] : Sample) = s := by
  funext i
  fin_cases i <;> rfl

/-- The buffer produced by `addSample` explicitly. -/
theorem addSample_data (h : MetricHistory) (s : Sample) :
    (h.addSample s).data
      = (if h.data.length = MAX_HISTORY then h.data.tail else h.data)
          ++ [s] := by
  unfold MetricHistory.addSample MetricHistory.add
  rw [sample_eta]

/-- One `add` keeps the buffer length within `MAX_HISTORY`. -/
theorem addSample_length_le (h : MetricHistory) (s : Sample)
    (hle : h.data.length ≤ MAX_HISTORY) :
    (h.addSample s).data.length ≤ MAX_HISTORY := by
  rw [addSample_data]
  by_cases hcap : h.data.length = MAX_HISTORY
  · rw [if_pos hcap]
    simp only [List.length_append, List.length_tail, List.length_singleton,
      hcap, MAX_HISTORY]
    omega
  · rw [if_neg hcap]
    simp only [List.length_append, List.length_singleton]
    omega

/-- The buffer length never exceeds `MAX_HISTORY` under any push sequence. -/
theorem push_all_length_le (ss : List Sample) (h : MetricHistory)
    (hle : h.data.length ≤ MAX_HISTORY) :
    (push_all h ss).data.length ≤ MAX_HISTORY := by
  induction ss generalizing h with
  | nil => exact hle
  | cons s rest ih => exact ih (h.addSample s) (addSample_length_le h s hle)

/-- Sliding-window characterization of the buffer after a push sequence. -/
theorem push_all_data (ss : List Sample) (h : MetricHistory)
    (hle : h.data.length ≤ MAX_HISTORY) :
    (push_all h ss).data
      = (h.data ++ ss).drop (h.data.length + ss.length - MAX_HISTORY) := by
  induction ss generalizing h with
  | nil =>
    simp [push_all, Nat.sub_eq_zero_of_le hle]
  | cons s rest ih =>
    have step : push_all h (s :: rest) = push_all (h.addSample s) rest := rfl
    rw [step, ih (h.addSample s) (addSample_length_le h s hle),
      addSample_data]
    by_cases hcap : h.data.length = MAX_HISTORY
    · rw [if_pos hcap]
      have hne : h.data ≠ [] := by
        intro h0
        rw [h0] at hcap
        simp [MAX_HISTORY] at hcap
      calc List.drop ((h.data.tail ++ [s]).length + rest.length - MAX_HISTORY)
              ((h.data.tail ++ [s]) ++ rest)
          = List.drop rest.length (h.data.tail ++ (s :: rest)) := by
            rw [List.append_assoc, List.singleton_append]
            congr 1
            rw [List.length_append, List.length_tail, List.length_singleton,
              hcap]
            simp only [MAX_HISTORY]
            omega
        _ = List.drop rest.length ((h.data ++ (s :: rest)).tail) := by
            rw [List.tail_append_of_ne_nil hne]
        _ = List.drop rest.length (List.drop 1 (h.data ++ (s :: rest))) := by
            rw [List.drop_one]
        _ = List.drop (1 + rest.length) (h.data ++ (s :: rest)) := by
            rw [List.drop_drop]
        _ = List.drop (h.data.length + (s :: rest).length - MAX_HISTORY)
              (h.data ++ s :: rest) := by
            congr 1
            rw [List.length_cons, hcap]
            simp only [MAX_HISTORY]
            omega
    · rw [if_neg hcap]
      rw [List.append_assoc, List.singleton_append]
      congr 1
      rw [List.length_append, List.length_singleton, List.length_cons]
      omega

/-- Each EWMA update keeps the smoothed score of dimension `i` inside any
interval `[lo, hi]` containing both the current smoothed value and all the
raw scores applied. -/
theorem update_all_bounds (scores : List (Fin 4 → ℚ)) (h : MetricHistory)
    (i : Fin 4) (lo hi : ℚ) (hlo : lo ≤ h.smoothed_scores i)
    (hhi : h.smoothed_scores i ≤ hi)
    (hbounds : ∀ s ∈ scores, lo ≤ s i ∧ s i ≤ hi) :
    lo ≤ (update_all h scores).smoothed_scores i ∧
    (update_all h scores).smoothed_scores i ≤ hi := by
  induction scores generalizing h with
  | nil => exact ⟨hlo, hhi⟩
  | cons sc rest ih =>
    have hsc := hbounds sc (List.mem_cons_self sc rest)
    have hval : (h.update_smoothed_scores sc).smoothed_scores i
        = SMOOTHING_ALPHA * sc i + (1 - SMOOTHING_ALPHA) * h.smoothed_scores i
      := rfl
    have hstep_lo : lo ≤ (h.update_smoothed_scores sc).smoothed_scores i := by
      rw [hval, SMOOTHING_ALPHA]
      linarith [hsc.1]
    have hstep_hi : (h.update_smoothed_scores sc).smoothed_scores i ≤ hi := by
      rw [hval, SMOOTHING_ALPHA]
      linarith [hsc.2]
    exact ih (h.update_smoothed_scores sc) hstep_lo hstep_hi
      (fun s hs => hbounds s (List.mem_cons_of_mem sc hs))

/-! ### Protocol claims -/

/-- C4: acknowledgement subject rewriting is idempotent — feeding the subject
produced by one `EventAck::new` call back into a second call yields the same
subject; in particular a subject beginning with `"ack-"` is never
double-prefixed. -/
theorem event_ack_subject_idempotent
    (subject payload : RStr) (status : ICUStatus) (error : Option ICUError)
    (payload' : RStr) (status' : ICUStatus) (error' : Option ICUError) :
    (EventAck.new (EventAck.new subject payload status error).subject
        payload' status' error').subject
      = (EventAck.new subject payload status error).subject := by
  by_cases hp : (['a', 'c', 'k', '-'] : RStr) <+: subject
  · simp [EventAck.new, starts_with, hp]
  · have hp2 : (['a', 'c', 'k', '-'] : RStr)
        <+: 'a' :: 'c' :: 'k' :: '-' :: subject := ⟨subject, rfl⟩
    simp [EventAck.new, starts_with, hp, hp2]

/-- C5 counterexample: `EventAck::new` on a subject already prefixed with
`"ack-"`, with an error supplied and `status = Success`, returns the given
status `Success` and the given payload — not `Failure` with the error's
message as the claim states. -/
theorem event_ack_prefixed_ignores_error_cex :
    (EventAck.new "ack-x".toList "p".toList ICUStatus.Success
        (some ⟨⟨13⟩, "boom".toList⟩)).status = ICUStatus.Success ∧
    (EventAck.new "ack-x".toList "p".toList ICUStatus.Success
        (some ⟨⟨13⟩, "boom".toList⟩)).payload = "p".toList ∧
    starts_with "ack-x".toList "ack-".toList = true := by
  decide

/-- C5 (amended): when the subject already begins with `"ack-"`,
`EventAck::new` passes subject, payload and status through unchanged and
ignores the error argument entirely; the error-based status/payload selection
applies only to subjects not yet prefixed. -/
theorem event_ack_prefixed_passthrough
    (subject payload : RStr) (status : ICUStatus) (error : Option ICUError)
    (h : starts_with subject "ack-".toList = true) :
    EventAck.new subject payload status error
      = { subject := subject, payload := payload, status := status } := by
  unfold EventAck.new
  rw [if_pos h]

/-- Witness for `event_ack_prefixed_passthrough` at a concrete input. -/
theorem event_ack_prefixed_passthrough_witness :
    EventAck.new "ack-x".toList "p".toList ICUStatus.Failure
        (some ⟨⟨13⟩, "boom".toList⟩)
      = { subject := "ack-x".toList, payload := "p".toList
          status := ICUStatus.Failure } :=
  event_ack_prefixed_passthrough "ack-x".toList "p".toList ICUStatus.Failure
    (some ⟨⟨13⟩, "boom".toList⟩) (by decide)

/-- C2 counterexample: for a request with `reply = true` whose subject
already begins with `"ack-"`, the handler still prepends another `"ack-"`:
the response subject is `"ack-ack-CriticalAlert"`, not the unchanged
`"ack-CriticalAlert"` the claim requires. -/
theorem alert_reply_true_already_prefixed_cex :
    starts_with "ack-CriticalAlert".toList "ack-".toList = true ∧
    (EventsService.alert ⟨"ack-CriticalAlert".toList, "p".toList, true⟩).map
        Acknowledge.subject = some "ack-ack-CriticalAlert".toList ∧
    ("ack-ack-CriticalAlert".toList : RStr) ≠ "ack-CriticalAlert".toList := by
  decide

/-- C2 (amended): for every request with `reply = true`, the handler replies
with an acknowledgement whose subject is the request's subject with `"ack-"`
prepended unconditionally (even if already so prefixed), status `Success`
(i32 value 1), and the fixed confirmation payload. -/
theorem alert_reply_true_always_prefixes (event : Event)
    (h : event.reply = true) :
    EventsService.alert event
      = some { subject := "ack-".toList ++ event.subject
               status := 1
               payload := "Acknowledged successfully.".toList } := by
  unfold EventsService.alert
  simp [h, ICUStatus.toI32]

/-- Witness for `alert_reply_true_always_prefixes` at a concrete request. -/
theorem alert_reply_true_always_prefixes_witness :
    EventsService.alert ⟨"CriticalAlert".toList, "cpu 99".toList, true⟩
      = some { subject := "ack-CriticalAlert".toList
               status := 1
               payload := "Acknowledged successfully.".toList } := by
  have h := alert_reply_true_always_prefixes
    ⟨"CriticalAlert".toList, "cpu 99".toList, true⟩ rfl
  simpa using h

/-- C6: for every request with `reply = false`, the handler still returns a
well-formed acknowledgement (`Ok` response), with status `Failure` (i32 value
0) and a non-empty explanatory payload. -/
theorem alert_reply_false_failure_ack (event : Event)
    (h : event.reply = false) :
    EventsService.alert event
      = some { subject := event.subject
               status := ICUStatus.Failure.toI32
               payload := "Acknowledgement failed.".toList } ∧
    ("Acknowledgement failed.".toList : RStr) ≠ [] := by
  unfold EventsService.alert
  refine ⟨by simp [h], by decide⟩

/-- Witness for `alert_reply_false_failure_ack` at a concrete request. -/
theorem alert_reply_false_failure_ack_witness :
    EventsService.alert ⟨"CriticalAlert".toList, "cpu 99".toList, false⟩
      = some { subject := "CriticalAlert".toList
               status := ICUStatus.Failure.toI32
               payload := "Acknowledgement failed.".toList } ∧
    ("Acknowledgement failed.".toList : RStr) ≠ [] :=
  alert_reply_false_failure_ack
    ⟨"CriticalAlert".toList, "cpu 99".toList, false⟩ rfl

/-! ### Scoring-engine claims -/

/-- C8: for a dimension not spike-flagged with threshold `t`, a smoothed
score of exactly `t + 0.2` yields `Warning` and not `Critical` (the
Critical boundary is strict `>`), while any score strictly above `t + 0.2`
yields `Critical`. -/
theorem determine_status_boundary (t : ℚ) :
    determine_status (t + 2 / 10) t = MetricStatus.Warning ∧
    determine_status (t + 2 / 10) t ≠ MetricStatus.Critical ∧
    (∀ s : ℚ, s > t + 2 / 10 → determine_status s t = MetricStatus.Critical) := by
  have hw : determine_status (t + 2 / 10) t = MetricStatus.Warning := by
    unfold determine_status
    rw [if_neg (by linarith), if_pos (by linarith)]
  refine ⟨hw, ?_, ?_⟩
  · rw [hw]
    intro hc
    cases hc
  intro s hs
  unfold determine_status
  rw [if_pos hs]

/-- Witness for `determine_status_boundary` at `t = 0.7`, `s = 1`. -/
theorem determine_status_boundary_witness :
    determine_status (7 / 10 + 2 / 10) (7 / 10) = MetricStatus.Warning ∧
    determine_status 1 (7 / 10) = MetricStatus.Critical :=
  ⟨(determine_status_boundary (7 / 10)).1,
   (determine_status_boundary (7 / 10)).2.2 1 (by norm_num)⟩

/-- C1: whenever isolation-forest training fails for a cycle, the verdict
has all four per-metric statuses and the overall status `Normal`, and the
history buffer, previous-sample record and smoothed-score state are
returned unchanged. -/
theorem analyze_status_training_failure_neutral
    (from_slice : List Sample → ForestOptions → Option (Sample → ℚ))
    (history : MetricHistory)
    (hfail : from_slice history.data
        { n_trees := 100, sample_size := history.data.length
          max_tree_depth := none, extension_level := 1 } = none) :
    (analyze_status from_slice history).1.cpu.status = MetricStatus.Normal ∧
    (analyze_status from_slice history).1.ram.status = MetricStatus.Normal ∧
    (analyze_status from_slice history).1.disk.status = MetricStatus.Normal ∧
    (analyze_status from_slice history).1.network.status = MetricStatus.Normal ∧
    (analyze_status from_slice history).1.overall_status = MetricStatus.Normal ∧
    (analyze_status from_slice history).2.data = history.data ∧
    (analyze_status from_slice history).2.previous_data
      = history.previous_data ∧
    (analyze_status from_slice history).2.smoothed_scores
      = history.smoothed_scores := by
  simp [analyze_status, hfail]

/-- Witness for `analyze_status_training_failure_neutral`: a training
function that always fails, applied to the empty history. -/
theorem analyze_status_training_failure_neutral_witness :
    (analyze_status (fun _ _ => none) MetricHistory.new).1.cpu.status
      = MetricStatus.Normal ∧
    (analyze_status (fun _ _ => none) MetricHistory.new).1.ram.status
      = MetricStatus.Normal ∧
    (analyze_status (fun _ _ => none) MetricHistory.new).1.disk.status
      = MetricStatus.Normal ∧
    (analyze_status (fun _ _ => none) MetricHistory.new).1.network.status
      = MetricStatus.Normal ∧
    (analyze_status (fun _ _ => none) MetricHistory.new).1.overall_status
      = MetricStatus.Normal ∧
    (analyze_status (fun _ _ => none) MetricHistory.new).2.data
      = MetricHistory.new.data ∧
    (analyze_status (fun _ _ => none) MetricHistory.new).2.previous_data
      = MetricHistory.new.previous_data ∧
    (analyze_status (fun _ _ => none) MetricHistory.new).2.smoothed_scores
      = MetricHistory.new.smoothed_scores :=
  analyze_status_training_failure_neutral (fun _ _ => none) MetricHistory.new
    rfl

/-- C7: starting from the empty history, the buffer length never exceeds
`MAX_HISTORY = 100`; the buffer always holds the last `MAX_HISTORY` samples
pushed, in insertion order; in particular after pushing `100 + k` samples it
holds exactly the last `100`. -/
theorem history_capacity_and_suffix (ss : List Sample) :
    (push_all MetricHistory.new ss).data.length ≤ MAX_HISTORY ∧
    (push_all MetricHistory.new ss).data
      = ss.drop (ss.length - MAX_HISTORY) ∧
    (∀ k : Nat, ss.length = MAX_HISTORY + k →
      (push_all MetricHistory.new ss).data = ss.drop k) := by
  have hnew : MetricHistory.new.data = [] := rfl
  have hdata := push_all_data ss MetricHistory.new (by rw [hnew]; simp)
  rw [hnew] at hdata
  simp only [List.nil_append, List.length_nil, Nat.zero_add] at hdata
  refine ⟨push_all_length_le ss MetricHistory.new (by rw [hnew]; simp),
    hdata, ?_⟩
  intro k hk
  rw [hdata, hk]
  congr 1
  omega

/-- Witness for `history_capacity_and_suffix`: pushing `101 = 100 + 1`
samples leaves the last `100` of them. -/
theorem history_capacity_and_suffix_witness :
    (push_all MetricHistory.new
        (List.replicate 101 ((fun _ => 5) : Sample))).data.length
      ≤ MAX_HISTORY ∧
    (push_all MetricHistory.new
        (List.replicate 101 ((fun _ => 5) : Sample))).data
      = (List.replicate 101 ((fun _ => 5) : Sample)).drop
          ((List.replicate 101 ((fun _ => 5) : Sample)).length - MAX_HISTORY) ∧
    (push_all MetricHistory.new
        (List.replicate 101 ((fun _ => 5) : Sample))).data
      = (List.replicate 101 ((fun _ => 5) : Sample)).drop 1 := by
  have h := history_capacity_and_suffix
    (List.replicate 101 ((fun _ => 5) : Sample))
  exact ⟨h.1, h.2.1, h.2.2 1 (by simp [MAX_HISTORY])⟩

/-- C9 counterexample: starting from the initial smoothing state (all
zeros), a single EWMA update with raw score `1` in every dimension leaves
`smoothed[0] = 0.3`, strictly below `1`, which is both the minimum and the
maximum raw score observed for dimension 0 so far — so the smoothed score
is *not* within the range spanned by the observed raw scores. -/
theorem smoothed_below_min_raw_cex :
    (update_all MetricHistory.new
        [((fun _ => 1) : Fin 4 → ℚ)]).smoothed_scores 0 = 3 / 10 ∧
    (3 / 10 : ℚ) < 1 := by
  constructor
  · show SMOOTHING_ALPHA * 1 + (1 - SMOOTHING_ALPHA) * 0 = 3 / 10
    norm_num [SMOOTHING_ALPHA]
  · norm_num

/-- C9 (amended): starting from the initial smoothing state, the smoothed
score of every dimension stays within every interval that contains the
initial value `0` together with all raw scores observed for that dimension —
i.e. within the range spanned by the observed raw scores *and the initial
zero*, not by the raw scores alone. -/
theorem smoothed_within_range_with_init
    (scores : List (Fin 4 → ℚ)) (i : Fin 4) (lo hi : ℚ)
    (hlo0 : lo ≤ 0) (hhi0 : 0 ≤ hi)
    (hbounds : ∀ s ∈ scores, lo ≤ s i ∧ s i ≤ hi) :
    lo ≤ (update_all MetricHistory.new scores).smoothed_scores i ∧
    (update_all MetricHistory.new scores).smoothed_scores i ≤ hi :=
  update_all_bounds scores MetricHistory.new i lo hi hlo0 hhi0 hbounds

/-- Witness for `smoothed_within_range_with_init`: one update with raw
score 1 keeps `smoothed[0]` within `[0, 1]`. -/
theorem smoothed_within_range_with_init_witness :
    (0 : ℚ) ≤ (update_all MetricHistory.new
        [((fun _ => 1) : Fin 4 → ℚ)]).smoothed_scores 0 ∧
    (update_all MetricHistory.new
        [((fun _ => 1) : Fin 4 → ℚ)]).smoothed_scores 0 ≤ 1 :=
  smoothed_within_range_with_init [((fun _ => 1) : Fin 4 → ℚ)] 0 0 1
    le_rfl zero_le_one (by decide)

/-- C10: after every `add`, `previous_data` is exactly the sample that was
at the back of the buffer just before the call (`none` after the very first
add, the second-to-last element once the buffer holds at least two); hence
`detect_spike` applied to the newest sample compares the two most recently
pushed samples. -/
theorem previous_data_tracks_last (h : MetricHistory) (c r d l : ℚ) :
    (h.add c r d l).previous_data = h.data.getLast? ∧
    (2 ≤ (h.add c r d l).data.length →
      (h.add c r d l).previous_data
        = (h.add c r d l).data[(h.add c r d l).data.length - 2]?) ∧
    (h.data = [] → (h.add c r d l).previous_data = none) ∧
    (∀ current : Sample, (h.add c r d l).detect_spike current
      = match h.data.getLast? with
        | some prev => fun i => |current i - prev i| > SPIKE_THRESHOLD
        | none => fun _ => false) := by
  have hprev : (h.add c r d l).previous_data = h.data.getLast? := by
    simp only [MetricHistory.add]
    by_cases hcap : h.data.length = MAX_HISTORY
    · rw [if_pos hcap]
      rcases hdata : h.data with _ | ⟨a, _ | ⟨b, t⟩⟩
      · rw [hdata] at hcap
        simp [MAX_HISTORY] at hcap
      · rw [hdata] at hcap
        simp [MAX_HISTORY] at hcap
      · simp
    · rw [if_neg hcap]
  refine ⟨hprev, ?_, ?_, ?_⟩
  · intro hlen
    rw [hprev]
    simp only [MetricHistory.add] at hlen ⊢
    set dd := if h.data.length = MAX_HISTORY then h.data.tail else h.data
      with hdd
    simp only [List.length_append, List.length_singleton] at hlen ⊢
    have hddne : dd ≠ [] := by
      intro h0
      rw [h0] at hlen
      simp at hlen
    have hlt : dd.length - 1 < dd.length := by
      have := List.length_pos.mpr hddne
      omega
    rw [show dd.length + 1 - 2 = dd.length - 1 by omega,
      List.getElem?_append_left hlt, List.getLast?_eq_getElem?]
    have hgoal : h.data.getLast? = dd.getLast? := by
      rw [hdd]
      by_cases hcap : h.data.length = MAX_HISTORY
      · rw [if_pos hcap]
        rcases hdata : h.data with _ | ⟨a, _ | ⟨b, t⟩⟩
        · rw [hdata] at hcap
          simp [MAX_HISTORY] at hcap
        · rw [hdata] at hcap
          simp [MAX_HISTORY] at hcap
        · simp
      · rw [if_neg hcap]
    rw [List.getLast?_eq_getElem?, List.getLast?_eq_getElem?] at hgoal
    exact hgoal
  · intro hnil
    rw [hprev, hnil]
    rfl
  · intro current
    unfold MetricHistory.detect_spike
    rw [hprev]

/-- Witness for `previous_data_tracks_last` at concrete two-push and
one-push histories. -/
theorem previous_data_tracks_last_witness :
    ((MetricHistory.new.add 1 1 1 1).add 2 2 2 2).previous_data
      = (MetricHistory.new.add 1 1 1 1).data.getLast? ∧
    ((MetricHistory.new.add 1 1 1 1).add 2 2 2 2).previous_data
      = ((MetricHistory.new.add 1 1 1 1).add 2 2 2 2).data[
          ((MetricHistory.new.add 1 1 1 1).add 2 2 2 2).data.length - 2]? ∧
    (MetricHistory.new.add 1 1 1 1).previous_data = none :=
  ⟨(previous_data_tracks_last (MetricHistory.new.add 1 1 1 1) 2 2 2 2).1,
   (previous_data_tracks_last (MetricHistory.new.add 1 1 1 1) 2 2 2 2).2.1
     (by decide),
   (previous_data_tracks_last MetricHistory.new 1 1 1 1).2.2.1 rfl⟩

/-- C3 counterexample: in the cycle run from `c3_history`, dimension 1
(RAM) is spike-flagged, and its smoothed score for this cycle is
`0.3 * 1 + 0.7 * 0.9 = 0.93`, strictly above `threshold + 0.2 = 0.8`, so
the threshold comparison alone would yield `Critical`; yet the aggregator
assigns `Warning`, which ranks strictly below `Critical` — the spike flag
does lower the status below Critical. -/
theorem spike_downgrades_critical_cex :
    (analyze_status c3_from_slice c3_history).2.smoothed_scores 1
      = 93 / 100 ∧
    determine_status
        ((analyze_status c3_from_slice c3_history).2.smoothed_scores 1)
        (6 / 10)
      = MetricStatus.Critical ∧
    c3_history.detect_spike c3_history.data.getLast! 1 = true ∧
    (analyze_status c3_from_slice c3_history).1.status_vec 1
      = MetricStatus.Warning ∧
    MetricStatus.Warning.rank < MetricStatus.Critical.rank := by
  with_unfolding_all decide

/-- C3 (amended): a spike-flagged dimension is always assigned exactly
`Warning` — the status never drops below Warning, but when the threshold
comparison on the smoothed score would yield `Critical`, the spike flag
replaces that `Critical` by `Warning` as well. -/
theorem spike_forces_warning
    (from_slice : List Sample → ForestOptions → Option (Sample → ℚ))
    (history : MetricHistory) (f : Sample → ℚ) (i : Fin 4)
    (hf : from_slice history.data
        { n_trees := 100, sample_size := history.data.length
          max_tree_depth := none, extension_level := 1 } = some f)
    (hs : history.detect_spike history.data.getLast! i = true) :
    (analyze_status from_slice history).1.status_vec i
      = MetricStatus.Warning := by
  have hspikes : ∀ (ls : Fin 4 → ℚ) (c : Sample),
      (history.update_smoothed_scores ls).detect_spike c
        = history.detect_spike c := fun _ _ => rfl
  simp only [analyze_status, hf, Metrics.status_vec]
  revert hs
  fin_cases i <;> intro hs <;> simp at hs <;> simp [hspikes, hs]

/-- Witness for `spike_forces_warning`: a two-sample history whose second
sample jumps by 30 in dimension 0, with an always-succeeding trainer. -/
theorem spike_forces_warning_witness :
    (analyze_status (fun _ _ => some (fun _ => 1))
        ((MetricHistory.new.add 0 0 0 0).add 30 0 0 0)).1.status_vec 0
      = MetricStatus.Warning :=
  spike_forces_warning (fun _ _ => some (fun _ => 1))
    ((MetricHistory.new.add 0 0 0 0).add 30 0 0 0) (fun _ => 1) 0 rfl
    (by with_unfolding_all decide)

end SysMon
